import Mathlib

/-!
# Verification of the flotte worktree status-reconciliation engine

Shallow embedding of the flotte repository (docker-compose-per-git-worktree
manager).  Python classes become Lean structures, methods become pure
functions or explicit state-passing functions, and `dict`s become
association lists.  Monotonic wall-clock instants are modelled as integers
(`time.monotonic()` values); the grace window `OPERATION_GRACE_PERIOD = 2.0`
seconds becomes the integer constant `2` in the same unit.

Sources embedded:
* `flotte/flotte/models/container.py`   — `ContainerState`, `Container`
* `flotte/flotte/models/worktree.py`    — `WorktreeStatus`, `Worktree.actual_status`,
  `Worktree.update_from_poll`
* `flotte/flotte/app.py`                — `FlotteApp._acquire_operation_lock`,
  `FlotteApp._release_operation_lock`, `FlotteApp.get_worktree_status`,
  `FlotteApp.poll_container_status` (the per-worktree body `poll_single`)
* `flotte/flotte/services/docker_manager.py` — `DockerManager.get_containers`,
  `DockerManager._parse_ports`
* `flotte/services/worktree_manager.py` — `WorktreeManager._get_port_offset`,
  `WorktreeManager.find_next_port_offset`, `WorktreeManager._sanitize_branch_name`
-/

set_option maxRecDepth 16384

namespace Flotte

/-- Container states as reported by docker compose ps
(`flotte/flotte/models/container.py`, `class ContainerState`). -/
inductive ContainerState where
  | RUNNING
  | EXITED
  | PAUSED
  | RESTARTING
  | DEAD
  | CREATED
  | UNKNOWN
  deriving DecidableEq, Repr

/-- Aggregate status of all containers in a worktree
(`flotte/flotte/models/worktree.py`, `class WorktreeStatus`). -/
inductive WorktreeStatus where
  | RUNNING
  | STARTING
  | STOPPING
  | STOPPED
  | CREATING
  | DELETING
  | ERROR
  | UNKNOWN
  deriving DecidableEq, Repr

open WorktreeStatus

/-- `Worktree.actual_status` (`flotte/flotte/models/worktree.py`): aggregate
status computed purely from the states of the containers in the worktree's
container map.  The same logic also appears as
`calculate_status_from_containers` in `flotte/flotte/state.py`, whose
docstring records that it mirrors `Worktree.calculate_status()` — the name
under which `flotte/flotte/app.py` invokes this computation. -/
def actual_status (cs : List ContainerState) : WorktreeStatus :=
  if cs = [] then STOPPED
  else
    let running := cs.countP (fun c => c = ContainerState.RUNNING)
    let starting := cs.countP
      (fun c => c = ContainerState.CREATED ∨ c = ContainerState.RESTARTING)
    if running = cs.length then RUNNING
    else if 0 < starting then STARTING
    else if 0 < running then RUNNING
    else STOPPED

/-- The container-state view of the worktree map held by the app: worktree
name ↦ list of its containers' states (the only container data
`get_worktree_status` consumes). -/
abbrev WorktreeMap := List (String × List ContainerState)

/-- Association-list lookup by worktree name (Python `dict.get`). -/
def lookupWt (m : WorktreeMap) (n : String) : Option (List ContainerState) :=
  match m with
  | [] => none
  | (k, v) :: t => if k = n then some v else lookupWt t n

/-- Replace the container states recorded for worktree `n` (in-place mutation
of `worktree.containers` for the worktree object stored in the manager's
dict). -/
def setWt (m : WorktreeMap) (n : String) (cs : List ContainerState) : WorktreeMap :=
  m.map (fun kv => (kv.1, if kv.1 = n then cs else kv.2))

/-- The mutable fields of `FlotteApp` that the status/lock/grace logic reads
and writes (`flotte/flotte/app.py`, `__init__`).  `op_*` fields mirror
`_operation_in_progress`, `_operation_type`, `_operation_target`; the
`grace_*` fields mirror `_recent_operation_target`,
`_recent_operation_expected_status`, `_recent_operation_time`. -/
structure AppState where
  op_in_progress : Bool
  op_type : Option String
  op_target : Option String
  grace_target : Option String
  grace_expected : Option WorktreeStatus
  grace_time : Option Int
  worktrees : WorktreeMap
  deriving DecidableEq, Repr

/-- Grace window length: `FlotteApp.OPERATION_GRACE_PERIOD = 2.0` seconds. -/
def OPERATION_GRACE_PERIOD : Int := 2

/-- The `status_map` dict literal inside `FlotteApp.get_worktree_status`,
including the `dict.get(..., UNKNOWN)` default for unmapped keys. -/
def opStatusMap (op : String) : WorktreeStatus :=
  if op = "create" then CREATING
  else if op = "delete" then DELETING
  else if op = "start" then STARTING
  else if op = "stop" then STOPPING
  else if op = "restart" then STARTING
  else UNKNOWN

/-- `FlotteApp.get_worktree_status(worktree_name)`: the single source of
truth for a worktree's effective status, evaluated at monotonic instant
`now`.  Priority 1: in-flight operation targeting this worktree; priority 2:
unexpired grace record; priority 3: status computed from container states;
otherwise UNKNOWN.  Caveat for priority 3: the call `wt.calculate_status()`
raises AttributeError in the src snapshot (no such method on `Worktree`);
this embedding gives that branch the logic `state.py` documents as its
mirror (`calculate_status_from_containers`, i.e. `actual_status`), and
`get_worktree_status_src` below models the raising branch as it stands. -/
def get_worktree_status (s : AppState) (now : Int) (name : String) : WorktreeStatus :=
  let fromContainers :=
    match lookupWt s.worktrees name with
    | some cs => actual_status cs
    | none => UNKNOWN
  if s.op_in_progress ∧ s.op_target = some name then
    match s.op_type with
    | some op => opStatusMap op
    | none => UNKNOWN
  else
    match s.grace_target, s.grace_expected, s.grace_time with
    | some t, some e, some tm =>
      if t = name ∧ now - tm < OPERATION_GRACE_PERIOD then e else fromContainers
    | _, _, _ => fromContainers

/-- `FlotteApp._acquire_operation_lock(op_type, target)`: single-flight
check-and-set, executed synchronously (no suspension point).  Returns the
Python boolean result together with the successor state. -/
def acquireOperationLock (s : AppState) (op_type target : String) : Bool × AppState :=
  if s.op_in_progress then (false, s)
  else
    let s1 :=
      if s.grace_target = some target then
        { s with grace_target := none, grace_expected := none, grace_time := none }
      else s
    (true, { s1 with op_in_progress := true, op_type := some op_type,
                     op_target := some target })

/-- `FlotteApp._release_operation_lock(expected_status)` at monotonic instant
`now` (the `time.monotonic()` call).  Idempotent: a no-op when the lock is
not held. -/
def releaseOperationLock (s : AppState) (now : Int)
    (expected_status : Option WorktreeStatus) : AppState :=
  if ¬ s.op_in_progress then s
  else
    let s1 :=
      match expected_status, s.op_target with
      | some e, some target =>
        { s with grace_target := some target, grace_expected := some e,
                 grace_time := some now }
      | _, _ =>
        { s with grace_target := none, grace_expected := none, grace_time := none }
    { s1 with op_in_progress := false, op_type := none, op_target := none }

/-- The grace-clear block of `poll_single` inside
`FlotteApp.poll_container_status`, as documented: store the freshly fetched
container states for the worktree, then clear the grace record early when
the freshly computed status equals the expected status.  In the src snapshot
this block is unreachable: `get_containers` raises TypeError at its first
constructed row and `worktree.status = worktree.calculate_status()` raises
AttributeError before the clearing code runs — `pollSingleSrc` and
`pollSingleCaught` below model the body as it stands. -/
def pollSingle (s : AppState) (name : String) (fresh : List ContainerState) : AppState :=
  let s1 := { s with worktrees := setWt s.worktrees name fresh }
  let polled := actual_status fresh
  if s1.grace_target = some name ∧ s1.grace_expected.isSome then
    if s1.grace_expected = some polled then
      { s1 with grace_target := none, grace_expected := none, grace_time := none }
    else s1
  else s1

/-- Updating worktree `n` in place and looking it up again yields the fresh
container states, provided `n` was present. -/
theorem lookupWt_setWt_self (m : WorktreeMap) (n : String)
    (cs cs0 : List ContainerState) (h : lookupWt m n = some cs0) :
    lookupWt (setWt m n cs) n = some cs := by
  induction m with
  | nil => simp [lookupWt] at h
  | cons kv t ih =>
    obtain ⟨k, v⟩ := kv
    by_cases hk : k = n
    · subst hk
      simp [lookupWt, setWt] at h ⊢
    · simp [lookupWt, setWt, hk] at h ⊢
      exact ih h

end Flotte

namespace Flotte

open WorktreeStatus

/-- Concrete app state used by several witnesses: a `start` operation is in
flight for worktree `wt-a`, which also still carries a grace record and has
one exited container. -/
def lockedState : AppState :=
  { op_in_progress := true, op_type := some "start", op_target := some "wt-a",
    grace_target := some "wt-a", grace_expected := some STOPPED,
    grace_time := some 0,
    worktrees := [("wt-a", [ContainerState.EXITED])] }

/-- Concrete idle app state: no operation in flight, a grace record for
`wt-a` expecting `RUNNING` installed at instant 0, and one container map. -/
def idleGraceState : AppState :=
  { op_in_progress := false, op_type := none, op_target := none,
    grace_target := some "wt-a", grace_expected := some RUNNING,
    grace_time := some 0,
    worktrees := [("wt-a", [ContainerState.EXITED]),
                  ("wt-b", [ContainerState.RUNNING])] }

/-- C1: while the operation lock is held with target `W`, every status query
for `W` returns exactly the transient status mapped from the lock's
operation kind (create→CREATING, delete→DELETING, start→STARTING,
restart→STARTING, stop→STOPPING), independent of `W`'s container states and
of any grace record for `W` (both quantified over by `s` and untouched by
the proof). -/
theorem C1_locked_status_is_transient (s : AppState) (now : Int) (W k : String)
    (h1 : s.op_in_progress = true) (h2 : s.op_target = some W)
    (h3 : s.op_type = some k) :
    get_worktree_status s now W = opStatusMap k ∧
    opStatusMap "create" = CREATING ∧ opStatusMap "delete" = DELETING ∧
    opStatusMap "start" = STARTING ∧ opStatusMap "restart" = STARTING ∧
    opStatusMap "stop" = STOPPING := by
  refine ⟨?_, by decide, by decide, by decide, by decide, by decide⟩
  unfold get_worktree_status
  simp [h1, h2, h3]

/-- Witness for C1: on `lockedState` (a `start` in flight on `wt-a`, despite
a grace record expecting `STOPPED` and an exited container), the status
query at instant 1 returns `STARTING`. -/
theorem C1_witness :
    get_worktree_status lockedState 1 "wt-a" = opStatusMap "start" ∧
    opStatusMap "create" = CREATING ∧ opStatusMap "delete" = DELETING ∧
    opStatusMap "start" = STARTING ∧ opStatusMap "restart" = STARTING ∧
    opStatusMap "stop" = STOPPING :=
  C1_locked_status_is_transient lockedState 1 "wt-a" "start" rfl rfl rfl

/-- C2: while the operation lock is held, every further acquire — any
operation kind, any target, including the held target — returns `false` and
leaves the entire state (in particular the held operation kind and target)
unchanged.  The state type carries a single lock record by construction, so
no second lock can come to exist. -/
theorem C2_acquire_rejected_while_held (s : AppState) (op t : String)
    (h : s.op_in_progress = true) :
    acquireOperationLock s op t = (false, s) := by
  unfold acquireOperationLock
  simp [h]

/-- Witness for C2: with a `start` in flight on `wt-a`, a `delete` acquire
for the same worktree is rejected and alters nothing. -/
theorem C2_witness :
    acquireOperationLock lockedState "delete" "wt-a" = (false, lockedState) :=
  C2_acquire_rejected_while_held lockedState "delete" "wt-a" rfl

/-- C10: a successful acquire for target `T` (performed as one synchronous
step) deletes any grace record for `T`, so no state observable afterwards
has an in-flight operation on `T` together with a grace record for `T`, and
the effective status of `T` right after the acquire is the operation's
transient status. -/
theorem C10_acquire_clears_grace (s : AppState) (op T : String)
    (h : s.op_in_progress = false) :
    (acquireOperationLock s op T).1 = true ∧
    (acquireOperationLock s op T).2.grace_target ≠ some T ∧
    (s.grace_target = some T →
      (acquireOperationLock s op T).2.grace_target = none ∧
      (acquireOperationLock s op T).2.grace_expected = none ∧
      (acquireOperationLock s op T).2.grace_time = none) ∧
    (∀ now : Int, get_worktree_status (acquireOperationLock s op T).2 now T
      = opStatusMap op) := by
  by_cases hg : s.grace_target = some T
  · refine ⟨?_, ?_, ?_, ?_⟩ <;>
      simp [acquireOperationLock, h, hg, get_worktree_status]
  · refine ⟨?_, ?_, fun hc => absurd hc hg, ?_⟩ <;>
      simp [acquireOperationLock, h, hg, get_worktree_status]

/-- Witness for C10: acquiring `stop` on `wt-a` from `idleGraceState`
succeeds, clears the grace record for `wt-a`, and the status query right
after returns `STOPPING`. -/
theorem C10_witness :
    (acquireOperationLock idleGraceState "stop" "wt-a").1 = true ∧
    (acquireOperationLock idleGraceState "stop" "wt-a").2.grace_target ≠ some "wt-a" ∧
    (idleGraceState.grace_target = some "wt-a" →
      (acquireOperationLock idleGraceState "stop" "wt-a").2.grace_target = none ∧
      (acquireOperationLock idleGraceState "stop" "wt-a").2.grace_expected = none ∧
      (acquireOperationLock idleGraceState "stop" "wt-a").2.grace_time = none) ∧
    (∀ now : Int, get_worktree_status
      (acquireOperationLock idleGraceState "stop" "wt-a").2 now "wt-a"
      = opStatusMap "stop") :=
  C10_acquire_clears_grace idleGraceState "stop" "wt-a" rfl

/-- Documented semantics of the grace-clear block (`pollSingle`): with an
active grace record for `W` expecting `E` and no operation in flight, (a) a
poll whose freshly computed actual status equals `E` clears the grace record
at that poll — no time condition — after which every status query returns
the polled actual status; and (b) once the 2-second window has elapsed the
grace record no longer takes effect.  `C3_src_poll_never_clears_grace` below
shows the src snapshot raises before ever reaching this block. -/
theorem pollSingle_clears_matching_grace (s : AppState) (W : String)
    (E : WorktreeStatus) (t : Int) (cs0 fresh : List ContainerState)
    (hop : s.op_in_progress = false)
    (hg : s.grace_target = some W) (he : s.grace_expected = some E)
    (ht : s.grace_time = some t)
    (hw : lookupWt s.worktrees W = some cs0) :
    (actual_status fresh = E →
      (pollSingle s W fresh).grace_target = none ∧
      (pollSingle s W fresh).grace_expected = none ∧
      (pollSingle s W fresh).grace_time = none ∧
      ∀ now : Int, get_worktree_status (pollSingle s W fresh) now W
        = actual_status fresh) ∧
    (∀ now : Int, OPERATION_GRACE_PERIOD ≤ now - t →
      get_worktree_status s now W = actual_status cs0) := by
  constructor
  · intro hmatch
    have hps : pollSingle s W fresh =
        { s with worktrees := setWt s.worktrees W fresh,
                 grace_target := none, grace_expected := none,
                 grace_time := none } := by
      unfold pollSingle
      simp [hg, he, hmatch]
    refine ⟨by rw [hps], by rw [hps], by rw [hps], fun now => ?_⟩
    rw [hps]
    unfold get_worktree_status
    simp [hop, lookupWt_setWt_self s.worktrees W fresh cs0 hw]
  · intro now hexp
    unfold get_worktree_status
    simp only [hop, hg, he, ht, hw]
    have : ¬ (now - t < OPERATION_GRACE_PERIOD) := by omega
    simp [this]

/-- `pollSingle_clears_matching_grace` evaluated on `idleGraceState` (grace
record on `wt-a` expecting `RUNNING`, installed at instant 0, stored
containers `[EXITED]`): a poll computing `RUNNING` from fresh containers
`[RUNNING]` clears the record and the next query returns `RUNNING`; at
instant 2 (window elapsed) the query returns the stored actual status. -/
theorem pollSingle_clears_matching_grace_check :
    ((actual_status [ContainerState.RUNNING] = RUNNING →
      (pollSingle idleGraceState "wt-a" [ContainerState.RUNNING]).grace_target = none ∧
      (pollSingle idleGraceState "wt-a" [ContainerState.RUNNING]).grace_expected = none ∧
      (pollSingle idleGraceState "wt-a" [ContainerState.RUNNING]).grace_time = none ∧
      ∀ now : Int, get_worktree_status
        (pollSingle idleGraceState "wt-a" [ContainerState.RUNNING]) now "wt-a"
        = actual_status [ContainerState.RUNNING]) ∧
    (∀ now : Int, OPERATION_GRACE_PERIOD ≤ now - 0 →
      get_worktree_status idleGraceState now "wt-a"
        = actual_status [ContainerState.EXITED]))
    ∧ actual_status [ContainerState.RUNNING] = RUNNING
    ∧ actual_status [ContainerState.EXITED] = STOPPED :=
  ⟨pollSingle_clears_matching_grace idleGraceState "wt-a" RUNNING 0
      [ContainerState.EXITED] [ContainerState.RUNNING] rfl rfl rfl rfl rfl,
   by decide, by decide⟩

/-- C4: `actual_status` is exactly the documented five-way case split over
the container states: STOPPED on an empty map; RUNNING when every container
runs; STARTING when not all run and some container is created/restarting;
RUNNING when some but not all run and none is created/restarting; STOPPED
otherwise.  Purity and idempotence hold by construction: the computation is
a function of the container-state list alone and performs no writes. -/
theorem C4_actual_status_cases (cs : List ContainerState) :
    (cs = [] → actual_status cs = STOPPED) ∧
    (cs ≠ [] → (∀ c ∈ cs, c = ContainerState.RUNNING) →
      actual_status cs = RUNNING) ∧
    (¬ (∀ c ∈ cs, c = ContainerState.RUNNING) →
      (∃ c ∈ cs, c = ContainerState.CREATED ∨ c = ContainerState.RESTARTING) →
      actual_status cs = STARTING) ∧
    ((∃ c ∈ cs, c = ContainerState.RUNNING) →
      ¬ (∀ c ∈ cs, c = ContainerState.RUNNING) →
      ¬ (∃ c ∈ cs, c = ContainerState.CREATED ∨ c = ContainerState.RESTARTING) →
      actual_status cs = RUNNING) ∧
    (cs ≠ [] → ¬ (∃ c ∈ cs, c = ContainerState.RUNNING) →
      ¬ (∃ c ∈ cs, c = ContainerState.CREATED ∨ c = ContainerState.RESTARTING) →
      actual_status cs = STOPPED) := by
  have hall : cs.countP (fun c => c = ContainerState.RUNNING) = cs.length ↔
      ∀ c ∈ cs, c = ContainerState.RUNNING := by
    rw [List.countP_eq_length]
    simp
  have hrun : 0 < cs.countP (fun c => c = ContainerState.RUNNING) ↔
      ∃ c ∈ cs, c = ContainerState.RUNNING := by
    rw [List.countP_pos_iff]
    simp
  have hstart : 0 < cs.countP
      (fun c => decide (c = ContainerState.CREATED ∨ c = ContainerState.RESTARTING)) ↔
      ∃ c ∈ cs, c = ContainerState.CREATED ∨ c = ContainerState.RESTARTING := by
    rw [List.countP_pos_iff]
    simp
  refine ⟨fun he => by simp [actual_status, he], ?_, ?_, ?_, ?_⟩
  · intro hne hforall
    simp only [actual_status, hne, if_false]
    rw [if_pos (hall.mpr hforall)]
  · intro hnall hex
    have hne : cs ≠ [] := by
      rcases hex with ⟨c, hc, _⟩
      exact List.ne_nil_of_mem hc
    simp only [actual_status, hne, if_false]
    rw [if_neg (fun hc => hnall (hall.mp hc)), if_pos (hstart.mpr hex)]
  · intro hex hnall hnstart
    have hne : cs ≠ [] := by
      rcases hex with ⟨c, hc, _⟩
      exact List.ne_nil_of_mem hc
    simp only [actual_status, hne, if_false]
    rw [if_neg (fun hc => hnall (hall.mp hc)),
        if_neg (fun hc => hnstart (hstart.mp hc)),
        if_pos (hrun.mpr hex)]
  · intro hne hnrun hnstart
    have hnall : ¬ cs.countP (fun c => c = ContainerState.RUNNING) = cs.length := by
      intro hc
      rcases List.exists_mem_of_ne_nil cs hne with ⟨c, hc'⟩
      exact hnrun ⟨c, hc', hall.mp hc c hc'⟩
    simp only [actual_status, hne, if_false]
    rw [if_neg hnall, if_neg (fun hc => hnstart (hstart.mp hc)),
        if_neg (fun hc => hnrun (hrun.mp hc))]

/-- Witness for C4: the five branches evaluated on concrete container-state
lists — empty, all running, one created among exited, one running among
exited, and all exited. -/
theorem C4_witness :
    actual_status [] = STOPPED ∧
    actual_status [ContainerState.RUNNING, ContainerState.RUNNING] = RUNNING ∧
    actual_status [ContainerState.CREATED, ContainerState.EXITED] = STARTING ∧
    actual_status [ContainerState.RUNNING, ContainerState.EXITED] = RUNNING ∧
    actual_status [ContainerState.EXITED, ContainerState.DEAD] = STOPPED :=
  ⟨(C4_actual_status_cases []).1 rfl,
   (C4_actual_status_cases [ContainerState.RUNNING, ContainerState.RUNNING]).2.1
     (by decide) (by decide),
   (C4_actual_status_cases [ContainerState.CREATED, ContainerState.EXITED]).2.2.1
     (by decide) (by decide),
   (C4_actual_status_cases [ContainerState.RUNNING, ContainerState.EXITED]).2.2.2.1
     (by decide) (by decide) (by decide),
   (C4_actual_status_cases [ContainerState.EXITED, ContainerState.DEAD]).2.2.2.2
     (by decide) (by decide) (by decide)⟩

/-! ## Port-offset allocation (`flotte/services/worktree_manager.py`) -/

/-- A parsed `.env` file: `KEY=VALUE` pairs in file order, as produced by
`WorktreeManager._parse_env` (a Python dict, so keys are unique). -/
abbrev Env := List (String × String)

/-- Python `dict` lookup (`key in env` / `env[key]`). -/
def lookupEnv (e : Env) (k : String) : Option String :=
  match e with
  | [] => none
  | (k', v) :: t => if k' = k then some v else lookupEnv t k

/-- Python `str.startswith`, computed on the underlying character lists. -/
def strStartsWith (s p : String) : Bool :=
  p.data.isPrefixOf s.data

/-- Python `str.endswith`, computed on the underlying character lists. -/
def strEndsWith (s p : String) : Bool :=
  p.data.reverse.isPrefixOf s.data.reverse

/-- Digit run to number (helper for `parseInt?`). -/
def digitsToNat (l : List Char) : Nat :=
  l.foldl (fun n c => 10 * n + (c.toNat - 48)) 0

/-- Python `int(str)` on already-stripped `.env` values: optional sign
followed by decimal digits; anything else raises `ValueError`, modelled as
`none`. -/
def parseInt? (s : String) : Option Int :=
  match s.data with
  | [] => none
  | '-' :: rest =>
    if rest ≠ [] ∧ rest.all Char.isDigit then some (-(digitsToNat rest : Int)) else none
  | '+' :: rest =>
    if rest ≠ [] ∧ rest.all Char.isDigit then some ((digitsToNat rest : Int)) else none
  | l => if l.all Char.isDigit then some ((digitsToNat l : Int)) else none

/-- `WorktreeManager._get_port_offset(env_vars)`: walk the worktree's `.env`
pairs in order; at the first key ending in `_PORT` that also exists in the
main repo's `.env` and whose two values both parse as integers, return
worktree port minus main port; a `ValueError` moves on to the next key;
default 0. -/
def getPortOffset (main_env : Env) : Env → Int
  | [] => 0
  | (k, v) :: rest =>
    if strEndsWith k "_PORT" then
      match lookupEnv main_env k with
      | some mv =>
        match parseInt? v, parseInt? mv with
        | some w, some m => w - m
        | _, _ => getPortOffset main_env rest
      | none => getPortOffset main_env rest
    else getPortOffset main_env rest

/-- `PORT_OFFSET_INCREMENT` from `flotte/services/worktree_manager.py`. -/
def PORT_OFFSET_INCREMENT : Int := 100

/-- The scan loop of `find_next_port_offset`: `max_offset` accumulator over
the parent directory's entries (name, parsed `.env`), counting only
directories whose name starts with the configured prefix. -/
def findNextPortOffsetAux (main_env : Env) (pre : String) :
    List (String × Env) → Int → Int
  | [], acc => acc
  | (name, env) :: rest, acc =>
    if strStartsWith name pre then
      let off := getPortOffset main_env env
      findNextPortOffsetAux main_env pre rest (if acc < off then off else acc)
    else findNextPortOffsetAux main_env pre rest acc

/-- `WorktreeManager.find_next_port_offset()`: scan the sibling directories
(skipped entirely when the configured prefix is empty, leaving
`max_offset = 0`) and return the running maximum plus the fixed
increment. -/
def find_next_port_offset (main_env : Env) (pre : String)
    (dirs : List (String × Env)) : Int :=
  if pre = "" then PORT_OFFSET_INCREMENT
  else findNextPortOffsetAux main_env pre dirs 0 + PORT_OFFSET_INCREMENT

/-- The scan accumulator is exactly a `max`-fold over the offsets of the
prefix-matching directories. -/
theorem findNextPortOffsetAux_eq_foldl (main_env : Env) (pre : String)
    (dirs : List (String × Env)) :
    ∀ acc : Int, findNextPortOffsetAux main_env pre dirs acc =
      ((dirs.filter (fun d => strStartsWith d.1 pre)).map
        (fun d => getPortOffset main_env d.2)).foldl max acc := by
  have hmax : ∀ a b : Int, (if a < b then b else a) = max a b := by
    intro a b
    split <;> omega
  induction dirs with
  | nil => intro acc; rfl
  | cons d rest ih =>
    intro acc
    obtain ⟨name, env⟩ := d
    by_cases hs : strStartsWith name pre = true
    · simp only [findNextPortOffsetAux, hs, if_true, List.filter_cons, List.map_cons,
        List.foldl_cons, ih, hmax]
    · simp only [findNextPortOffsetAux, hs, if_false, ih, List.filter_cons,
        Bool.false_eq_true]

/-- A worktree whose `.env` agrees with the main repository's `.env` on
every pair it contains (in particular, main itself) has port offset 0. -/
theorem getPortOffset_self (main_env : Env) (sub : Env)
    (h : ∀ kv ∈ sub, lookupEnv main_env kv.1 = some kv.2) :
    getPortOffset main_env sub = 0 := by
  induction sub with
  | nil => rfl
  | cons kv rest ih =>
    obtain ⟨k, v⟩ := kv
    have hk : lookupEnv main_env k = some v := h (k, v) (by simp)
    have hrest : ∀ kv ∈ rest, lookupEnv main_env kv.1 = some kv.2 :=
      fun kv hkv => h kv (by simp [hkv])
    by_cases he : strEndsWith k "_PORT" = true
    · simp only [getPortOffset, he, if_true, hk]
      cases hv : parseInt? v with
      | none => simpa using ih hrest
      | some w => simp [hv, ih hrest]
    · simp only [getPortOffset, he, if_false]
      exact ih hrest

/-- C6: with a nonempty prefix, `find_next_port_offset` equals the maximum
(started at the default 0) of the per-sibling offsets — each computed by
`getPortOffset` as worktree port minus main port at the first usable
`*_PORT` key — over exactly the prefix-matching directories, plus the fixed
increment 100; and prepending a directory carrying the main repository's own
`.env` (main in the scan) never changes the result. -/
theorem C6_find_next_port_offset (main_env : Env) (pre : String)
    (dirs : List (String × Env)) (hp : pre ≠ "")
    (hmain : ∀ kv ∈ main_env, lookupEnv main_env kv.1 = some kv.2) :
    (find_next_port_offset main_env pre dirs =
      ((dirs.filter (fun d => strStartsWith d.1 pre)).map
        (fun d => getPortOffset main_env d.2)).foldl max 0
        + PORT_OFFSET_INCREMENT) ∧
    (dirs.filter (fun d => strStartsWith d.1 pre) = [] →
      find_next_port_offset main_env pre dirs = 100) ∧
    (∀ nm : String, find_next_port_offset main_env pre ((nm, main_env) :: dirs)
      = find_next_port_offset main_env pre dirs) ∧
    PORT_OFFSET_INCREMENT = 100 := by
  have heq : ∀ ds : List (String × Env), find_next_port_offset main_env pre ds =
      ((ds.filter (fun d => strStartsWith d.1 pre)).map
        (fun d => getPortOffset main_env d.2)).foldl max 0 + PORT_OFFSET_INCREMENT := by
    intro ds
    unfold find_next_port_offset
    rw [if_neg hp, findNextPortOffsetAux_eq_foldl]
  refine ⟨heq dirs, ?_, ?_, rfl⟩
  · intro hnone
    rw [heq dirs, hnone]
    rfl
  · intro nm
    rw [heq ((nm, main_env) :: dirs), heq dirs]
    by_cases hs : strStartsWith nm pre = true
    · simp only [List.filter_cons, hs, if_true, List.map_cons, List.foldl_cons,
        getPortOffset_self main_env main_env hmain, max_self]
    · simp only [List.filter_cons, hs, Bool.false_eq_true, if_false]

/-- Witness for C6: main `.env` has `WEB_PORT=3000`; two prefix-matching
siblings have `WEB_PORT=3100` and `WEB_PORT=3200` (offsets 100 and 200), so
the next offset is 300; with no siblings it is 100; scanning a copy of main
itself changes nothing. -/
theorem C6_witness :
    ((find_next_port_offset [("WEB_PORT", "3000")] "wt-"
        [("wt-a", [("WEB_PORT", "3100")]), ("wt-b", [("WEB_PORT", "3200")])] =
      (([("wt-a", [("WEB_PORT", "3100")]), ("wt-b", [("WEB_PORT", "3200")])].filter
          (fun d => strStartsWith d.1 "wt-")).map
        (fun d => getPortOffset [("WEB_PORT", "3000")] d.2)).foldl max 0
        + PORT_OFFSET_INCREMENT) ∧
      (([("wt-a", [("WEB_PORT", "3100")]), ("wt-b", [("WEB_PORT", "3200")])].filter
          (fun d => strStartsWith d.1 "wt-") = []) →
        find_next_port_offset [("WEB_PORT", "3000")] "wt-"
          [("wt-a", [("WEB_PORT", "3100")]), ("wt-b", [("WEB_PORT", "3200")])] = 100) ∧
      (∀ nm : String, find_next_port_offset [("WEB_PORT", "3000")] "wt-"
          ((nm, [("WEB_PORT", "3000")]) ::
            [("wt-a", [("WEB_PORT", "3100")]), ("wt-b", [("WEB_PORT", "3200")])])
        = find_next_port_offset [("WEB_PORT", "3000")] "wt-"
          [("wt-a", [("WEB_PORT", "3100")]), ("wt-b", [("WEB_PORT", "3200")])]) ∧
      PORT_OFFSET_INCREMENT = 100) ∧
    find_next_port_offset [("WEB_PORT", "3000")] "wt-"
      [("wt-a", [("WEB_PORT", "3100")]), ("wt-b", [("WEB_PORT", "3200")])] = 300 ∧
    find_next_port_offset [("WEB_PORT", "3000")] "wt-" [] = 100 :=
  ⟨C6_find_next_port_offset [("WEB_PORT", "3000")] "wt-"
      [("wt-a", [("WEB_PORT", "3100")]), ("wt-b", [("WEB_PORT", "3200")])]
      (by decide) (by decide),
   by decide, by decide⟩

/-! ## Port-string parsing (`Container._parse_ports`, duplicated verbatim as
`DockerManager._parse_ports`) -/

/-- Python `str.split(sep)` for a one-character separator, on character
lists ( `ports_str.split(",")` ). -/
def splitOnChar (sep : Char) : List Char → List (List Char)
  | [] => [[]]
  | c :: rest =>
    match splitOnChar sep rest with
    | [] => [[]]
    | s :: ss => if c = sep then [] :: s :: ss else (c :: s) :: ss

/-- Python `str.strip()`: drop leading and trailing whitespace. -/
def stripWs (l : List Char) : List Char :=
  ((l.dropWhile Char.isWhitespace).reverse.dropWhile Char.isWhitespace).reverse

/-- The characters before the first occurrence of `"->"`
(`port_spec.split("->")[0]`), or `none` when the segment contains no `"->"`
(`"->" in port_spec` fails). -/
def beforeArrow : List Char → Option (List Char)
  | [] => none
  | '-' :: '>' :: _ => some []
  | c :: rest => (beforeArrow rest).map (fun l => c :: l)

/-- The characters after the last `':'` (`host_part.rsplit(":", 1)[1]`), or
`none` when there is no colon (`":" in host_part` fails). -/
def afterLastColon (l : List Char) : Option (List Char) :=
  if ':' ∈ l then some ((l.reverse.takeWhile (fun c => decide (c ≠ ':'))).reverse)
  else none

/-- The host port contributed by one comma-separated segment: strip it, look
for `->`, then take the token after the last colon of the part before the
arrow; segments without `->` (unpublished) or without a colon contribute
nothing. -/
def hostPort? (seg : List Char) : Option (List Char) :=
  match beforeArrow (stripWs seg) with
  | none => none
  | some before => afterLastColon before

/-- The `exposed_ports` set accumulated by the loop in `_parse_ports`,
modelled as an insertion-ordered duplicate-free list. -/
def collectPorts : List (List Char) → List (List Char) → List (List Char)
  | [], acc => acc
  | seg :: rest, acc =>
    match hostPort? seg with
    | some p => collectPorts rest (if p ∈ acc then acc else acc ++ [p])
    | none => collectPorts rest acc

/-- The numeric sort key `lambda p: int(p) if p.isdigit() else 0`. -/
def portKey (p : List Char) : Nat :=
  if p ≠ [] ∧ p.all Char.isDigit then digitsToNat p else 0

/-- `_parse_ports` on the underlying character lists: split on commas,
collect the host ports into a set, return them sorted by numeric key. -/
def parsePortsL (l : List Char) : List (List Char) :=
  (collectPorts (splitOnChar ',' l) []).insertionSort
    (fun a b => portKey a ≤ portKey b)

/-- `Container._parse_ports(ports_str)` / `DockerManager._parse_ports`:
empty input short-circuits to `[]`; otherwise split, collect, sort. -/
def parse_ports (s : String) : List String :=
  if s = "" then []
  else (parsePortsL s.data).map (fun l => String.mk l)

/-- Ports collected by the loop are the segments' host ports (in some
order), with first-occurrence deduplication against the accumulator. -/
theorem mem_collectPorts (segs : List (List Char)) :
    ∀ acc p, p ∈ collectPorts segs acc ↔
      p ∈ acc ∨ ∃ seg ∈ segs, hostPort? seg = some p := by
  induction segs with
  | nil => intro acc p; simp [collectPorts]
  | cons seg rest ih =>
    intro acc p
    cases hs : hostPort? seg with
    | none =>
      simp only [collectPorts, hs, ih]
      constructor
      · rintro (h | h)
        · exact Or.inl h
        · exact Or.inr (by rcases h with ⟨sg, hsg, hp⟩; exact ⟨sg, by simp [hsg], hp⟩)
      · rintro (h | ⟨sg, hsg, hp⟩)
        · exact Or.inl h
        · rcases List.mem_cons.mp hsg with rfl | hsg'
          · rw [hs] at hp; cases hp
          · exact Or.inr ⟨sg, hsg', hp⟩
    | some q =>
      simp only [collectPorts, hs, ih]
      by_cases hq : q ∈ acc
      · rw [if_pos hq]
        constructor
        · rintro (h | h)
          · exact Or.inl h
          · exact Or.inr (by rcases h with ⟨sg, hsg, hp⟩; exact ⟨sg, by simp [hsg], hp⟩)
        · rintro (h | ⟨sg, hsg, hp⟩)
          · exact Or.inl h
          · rcases List.mem_cons.mp hsg with rfl | hsg'
            · rw [hs] at hp
              cases hp
              exact Or.inl hq
            · exact Or.inr ⟨sg, hsg', hp⟩
      · rw [if_neg hq]
        constructor
        · rintro (h | h)
          · rcases List.mem_append.mp h with h' | h'
            · exact Or.inl h'
            · refine Or.inr ⟨seg, by simp, ?_⟩
              have hpq : p = q := by simpa using h'
              rw [hs, hpq]
          · exact Or.inr (by rcases h with ⟨sg, hsg, hp⟩; exact ⟨sg, by simp [hsg], hp⟩)
        · rintro (h | ⟨sg, hsg, hp⟩)
          · exact Or.inl (List.mem_append.mpr (Or.inl h))
          · rcases List.mem_cons.mp hsg with rfl | hsg'
            · rw [hs] at hp
              cases hp
              exact Or.inl (List.mem_append.mpr (Or.inr (by simp)))
            · exact Or.inr ⟨sg, hsg', hp⟩

/-- The collected port set is duplicate-free. -/
theorem nodup_collectPorts (segs : List (List Char)) :
    ∀ acc, acc.Nodup → (collectPorts segs acc).Nodup := by
  induction segs with
  | nil => intro acc h; exact h
  | cons seg rest ih =>
    intro acc h
    cases hs : hostPort? seg with
    | none => simpa [collectPorts, hs] using ih acc h
    | some q =>
      simp only [collectPorts, hs]
      by_cases hq : q ∈ acc
      · rw [if_pos hq]
        exact ih acc h
      · rw [if_neg hq]
        refine ih _ ?_
        simpa [List.nodup_append] using ⟨h, hq⟩

/-- C8: `parse_ports` splits on commas; each segment contributes the token
after the last colon of its part before the first `->` (nothing without an
arrow or colon); the result is the deduplicated list of host ports sorted by
numeric key, and on the two documented inputs yields `["3406"]` and `[]`. -/
theorem C8_parse_ports_spec (l : List Char) :
    (∀ p, p ∈ parsePortsL l ↔ ∃ seg ∈ splitOnChar ',' l, hostPort? seg = some p) ∧
    (parsePortsL l).Nodup ∧
    (parsePortsL l).Pairwise (fun a b => portKey a ≤ portKey b) ∧
    parse_ports "0.0.0.0:3406->3306/tcp, [::]:3406->3306/tcp" = ["3406"] ∧
    parse_ports "3000/tcp" = [] := by
  haveI : IsTotal (List Char) (fun a b => portKey a ≤ portKey b) :=
    ⟨fun a b => Nat.le_total _ _⟩
  haveI : IsTrans (List Char) (fun a b => portKey a ≤ portKey b) :=
    ⟨fun _ _ _ h1 h2 => Nat.le_trans h1 h2⟩
  have hperm : List.Perm (parsePortsL l) (collectPorts (splitOnChar ',' l) []) :=
    List.perm_insertionSort _ _
  refine ⟨?_, ?_, ?_, by decide, by decide⟩
  · intro p
    rw [hperm.mem_iff, mem_collectPorts]
    simp
  · exact hperm.nodup_iff.mpr (nodup_collectPorts _ [] List.nodup_nil)
  · exact List.sorted_insertionSort _ _

/-- Witness for C8: the membership characterization, duplicate-freeness and
sortedness instantiated on the documented dual-stack port string, plus the
evaluated examples. -/
theorem C8_witness :
    ((∀ p, p ∈ parsePortsL ("0.0.0.0:3406->3306/tcp, [::]:3406->3306/tcp".data) ↔
      ∃ seg ∈ splitOnChar ',' ("0.0.0.0:3406->3306/tcp, [::]:3406->3306/tcp".data),
        hostPort? seg = some p) ∧
    (parsePortsL ("0.0.0.0:3406->3306/tcp, [::]:3406->3306/tcp".data)).Nodup ∧
    (parsePortsL ("0.0.0.0:3406->3306/tcp, [::]:3406->3306/tcp".data)).Pairwise
      (fun a b => portKey a ≤ portKey b) ∧
    parse_ports "0.0.0.0:3406->3306/tcp, [::]:3406->3306/tcp" = ["3406"] ∧
    parse_ports "3000/tcp" = []) :=
  C8_parse_ports_spec ("0.0.0.0:3406->3306/tcp, [::]:3406->3306/tcp".data)

/-! ## Branch-name sanitization (`WorktreeManager._sanitize_branch_name`) -/

/-- The ASCII uppercase letters (regex class `A-Z`). -/
def upperChars : List Char :=
  ['A', 'B', 'C', 'D', 'E', 'F', 'G', 'H', 'I', 'J', 'K', 'L', 'M',
   'N', 'O', 'P', 'Q', 'R', 'S', 'T', 'U', 'V', 'W', 'X', 'Y', 'Z']

/-- The ASCII lowercase letters (regex class `a-z`). -/
def lowerChars : List Char :=
  ['a', 'b', 'c', 'd', 'e', 'f', 'g', 'h', 'i', 'j', 'k', 'l', 'm',
   'n', 'o', 'p', 'q', 'r', 's', 't', 'u', 'v', 'w', 'x', 'y', 'z']

/-- The ASCII digits (regex class `0-9`). -/
def digitChars : List Char := ['0', '1', '2', '3', '4', '5', '6', '7', '8', '9']

/-- Membership in the regex class `[a-zA-Z0-9]`. -/
def isAsciiAlnumChar (c : Char) : Bool :=
  decide (c ∈ upperChars ∨ c ∈ lowerChars ∨ c ∈ digitChars)

/-- `re.sub(r"[^a-zA-Z0-9]", "-", branch_name)`: replace every character
outside `[a-zA-Z0-9]` with a dash. -/
def subDashes (l : List Char) : List Char :=
  l.map (fun c => if isAsciiAlnumChar c then c else '-')

/-- `re.sub(r"-+", "-", sanitized)`: collapse every maximal dash run to a
single dash.  The Boolean argument records whether the previous character
belonged to a still-open dash run. -/
def collapseAux : Bool → List Char → List Char
  | _, [] => []
  | prevDash, c :: rest =>
    if c = '-' then
      if prevDash then collapseAux true rest
      else '-' :: collapseAux true rest
    else c :: collapseAux false rest

/-- `.strip("-")`: drop leading and trailing dashes. -/
def stripDashes (l : List Char) : List Char :=
  ((l.dropWhile (fun c => decide (c = '-'))).reverse.dropWhile
    (fun c => decide (c = '-'))).reverse

/-- The ASCII uppercase-to-lowercase table. -/
def lowerPairs : List (Char × Char) :=
  [('A', 'a'), ('B', 'b'), ('C', 'c'), ('D', 'd'), ('E', 'e'), ('F', 'f'),
   ('G', 'g'), ('H', 'h'), ('I', 'i'), ('J', 'j'), ('K', 'k'), ('L', 'l'),
   ('M', 'm'), ('N', 'n'), ('O', 'o'), ('P', 'p'), ('Q', 'q'), ('R', 'r'),
   ('S', 's'), ('T', 't'), ('U', 'u'), ('V', 'v'), ('W', 'w'), ('X', 'x'),
   ('Y', 'y'), ('Z', 'z')]

/-- Python `str.lower()` restricted to ASCII; the only characters that reach
it in this pipeline are `[A-Za-z0-9-]`, on which Python's lowercasing and
this ASCII table agree. -/
def lowerAscii (c : Char) : Char :=
  match lowerPairs.find? (fun q => decide (q.1 = c)) with
  | some q => q.2
  | none => c

/-- The sub/collapse/strip prefix of the sanitization pipeline (everything
before the 30-character truncation and lowercasing). -/
def sanitizeCore (l : List Char) : List Char :=
  stripDashes (collapseAux false (subDashes l))

/-- `WorktreeManager._sanitize_branch_name(branch_name)`: substitute, then
collapse dash runs and strip edge dashes, then truncate to 30 characters and
lowercase — in the code's order `sanitized[:30].lower()`. -/
def sanitize_branch_name (s : String) : String :=
  String.mk (((sanitizeCore s.data).take 30).map lowerAscii)

/-- "No two consecutive dashes" as a relation on adjacent characters. -/
def noDoubleDash (a b : Char) : Prop := ¬(a = '-' ∧ b = '-')

/-- Characters emitted by the collapse pass all come from its input. -/
theorem mem_collapseAux (c : Char) :
    ∀ (l : List Char) (b : Bool), c ∈ collapseAux b l → c ∈ l := by
  intro l
  induction l with
  | nil => intro b h; simp [collapseAux] at h
  | cons d rest ih =>
    intro b h
    by_cases hd : d = '-'
    · subst hd
      cases b with
      | true =>
        simp only [collapseAux, if_pos rfl, if_pos rfl] at h
        exact List.mem_cons_of_mem _ (ih true h)
      | false =>
        simp only [collapseAux, if_pos rfl] at h
        rcases List.mem_cons.mp h with rfl | h'
        · exact List.mem_cons_self _ _
        · exact List.mem_cons_of_mem _ (ih true h')
    · simp only [collapseAux, if_neg hd] at h
      rcases List.mem_cons.mp h with rfl | h'
      · exact List.mem_cons_self _ _
      · exact List.mem_cons_of_mem _ (ih false h')

/-- A non-dash character of the input survives the collapse pass. -/
theorem mem_collapseAux_of (c : Char) (hc : c ≠ '-') :
    ∀ (l : List Char) (b : Bool), c ∈ l → c ∈ collapseAux b l := by
  intro l
  induction l with
  | nil => intro b h; cases h
  | cons d rest ih =>
    intro b h
    by_cases hd : d = '-'
    · subst hd
      have h' : c ∈ rest := by
        rcases List.mem_cons.mp h with rfl | h'
        · exact absurd rfl hc
        · exact h'
      cases b with
      | true =>
        simp only [collapseAux, if_pos rfl, if_pos rfl]
        exact ih true h'
      | false =>
        simp only [collapseAux, if_pos rfl]
        exact List.mem_cons_of_mem _ (ih true h')
    · simp only [collapseAux, if_neg hd]
      rcases List.mem_cons.mp h with rfl | h'
      · exact List.mem_cons_self _ _
      · exact List.mem_cons_of_mem _ (ih false h')

/-- After the collapse pass has just emitted a dash (flag `true`), the next
emitted character is never a dash. -/
theorem collapseAux_head_true (l : List Char) :
    (collapseAux true l).head? ≠ some '-' := by
  induction l with
  | nil => simp [collapseAux]
  | cons d rest ih =>
    by_cases hd : d = '-'
    · subst hd
      simpa [collapseAux] using ih
    · simp only [collapseAux, if_neg hd, List.head?_cons]
      intro h
      exact hd (by injection h)

/-- The collapse pass never emits two adjacent dashes. -/
theorem collapseAux_chain (l : List Char) :
    ∀ b, List.Chain' noDoubleDash (collapseAux b l) := by
  induction l with
  | nil => intro b; simp [collapseAux]
  | cons d rest ih =>
    intro b
    by_cases hd : d = '-'
    · subst hd
      cases b with
      | true => simpa [collapseAux] using ih true
      | false =>
        simp only [collapseAux, if_pos rfl]
        refine List.chain'_cons'.mpr ⟨?_, ih true⟩
        intro y hy hand
        rw [Option.mem_def] at hy
        exact collapseAux_head_true rest (hand.2 ▸ hy)
    · simp only [collapseAux, if_neg hd]
      refine List.chain'_cons'.mpr ⟨?_, ih false⟩
      intro y hy hand
      exact hd hand.1

/-- The first element surviving a `dropWhile` fails the predicate. -/
theorem head_dropWhile_false (p : Char → Bool) :
    ∀ (l : List Char) (c : Char), (l.dropWhile p).head? = some c → p c = false := by
  intro l
  induction l with
  | nil => intro c h; simp [List.dropWhile] at h
  | cons d rest ih =>
    intro c h
    by_cases hd : p d = true
    · simp only [List.dropWhile_cons, hd, if_true] at h
      exact ih c h
    · simp only [List.dropWhile_cons, hd, if_false] at h
      have : d = c := by injection h
      subst this
      simpa using hd

/-- Surviving a `dropWhile` when the predicate fails on the element. -/
theorem mem_dropWhile_of_false (p : Char → Bool) :
    ∀ (l : List Char) (c : Char), c ∈ l → p c = false → c ∈ l.dropWhile p := by
  intro l
  induction l with
  | nil => intro c h _; cases h
  | cons d rest ih =>
    intro c h hc
    by_cases hd : p d = true
    · simp only [List.dropWhile_cons, hd, if_true]
      rcases List.mem_cons.mp h with rfl | h'
      · rw [hc] at hd; cases hd
      · exact ih c h' hc
    · simp only [List.dropWhile_cons, hd, if_false]
      exact h

/-- Characters of the stripped list come from its input. -/
theorem mem_stripDashes (l : List Char) (c : Char) (h : c ∈ stripDashes l) :
    c ∈ l := by
  unfold stripDashes at h
  rw [List.mem_reverse] at h
  have h1 := (List.dropWhile_suffix _).subset h
  rw [List.mem_reverse] at h1
  exact (List.dropWhile_suffix _).subset h1

/-- A non-dash character of the input survives the strip pass. -/
theorem mem_stripDashes_of (l : List Char) (c : Char) (hc : c ∈ l)
    (hne : c ≠ '-') : c ∈ stripDashes l := by
  have hp : decide (c = '-') = false := by simpa using hne
  unfold stripDashes
  rw [List.mem_reverse]
  refine mem_dropWhile_of_false _ _ c ?_ hp
  rw [List.mem_reverse]
  exact mem_dropWhile_of_false _ _ c hc hp

/-- Stripping preserves the no-double-dash invariant. -/
theorem stripDashes_chain (l : List Char)
    (h : List.Chain' noDoubleDash l) :
    List.Chain' noDoubleDash (stripDashes l) := by
  have hsymm : ∀ (m : List Char), List.Chain' noDoubleDash m →
      List.Chain' noDoubleDash m.reverse := by
    intro m hm
    rw [List.chain'_reverse]
    exact hm.imp (fun a b hab hand => hab ⟨hand.2, hand.1⟩)
  unfold stripDashes
  refine hsymm _ (List.Chain'.suffix ?_ (List.dropWhile_suffix _))
  exact hsymm _ (List.Chain'.suffix h (List.dropWhile_suffix _))

/-- The stripped list never starts with a dash. -/
theorem stripDashes_head (l : List Char) (c : Char)
    (h : (stripDashes l).head? = some c) : c ≠ '-' := by
  unfold stripDashes at h
  rw [List.head?_reverse] at h
  obtain ⟨pre, hpre⟩ := List.dropWhile_suffix
    (l := (l.dropWhile (fun c => decide (c = '-'))).reverse)
    (fun c => decide (c = '-'))
  have hXne : (l.dropWhile (fun c => decide (c = '-'))).reverse.dropWhile
      (fun c => decide (c = '-')) ≠ [] := by
    intro hnil
    rw [hnil] at h
    cases h
  have h2 : (l.dropWhile (fun c => decide (c = '-'))).reverse.getLast?
      = some c := by
    rw [← hpre, List.getLast?_append_of_ne_nil pre hXne, h]
  rw [List.getLast?_reverse] at h2
  have h3 := head_dropWhile_false (fun c => decide (c = '-')) l c h2
  simpa using h3

/-- The stripped list never ends with a dash. -/
theorem stripDashes_getLast (l : List Char) (c : Char)
    (h : (stripDashes l).getLast? = some c) : c ≠ '-' := by
  unfold stripDashes at h
  rw [List.getLast?_reverse] at h
  have h3 := head_dropWhile_false (fun c => decide (c = '-'))
    (l.dropWhile (fun c => decide (c = '-'))).reverse c h
  simpa using h3

/-- Stripping an all-dash list leaves nothing. -/
theorem stripDashes_nil_of_all_dash (l : List Char)
    (h : ∀ c ∈ l, c = '-') : stripDashes l = [] := by
  have h1 : l.dropWhile (fun c => decide (c = '-')) = [] :=
    List.dropWhile_eq_nil_iff.mpr (fun x hx => by simp [h x hx])
  simp [stripDashes, h1]

/-- A character outside the uppercase table is left unchanged. -/
theorem lowerAscii_of_not_upper (c : Char) (h : c ∉ upperChars) :
    lowerAscii c = c := by
  have hfst : ∀ q ∈ lowerPairs, q.1 ∈ upperChars := by decide
  have hnone : lowerPairs.find? (fun q => decide (q.1 = c)) = none := by
    rw [List.find?_eq_none]
    intro q hq hcq
    exact h ((of_decide_eq_true hcq) ▸ hfst q hq)
  unfold lowerAscii
  rw [hnone]

/-- `lowerAscii` maps a character to a dash only if it already was one. -/
theorem lowerAscii_eq_dash_iff (c : Char) : lowerAscii c = '-' ↔ c = '-' := by
  constructor
  · intro h
    cases hfind : lowerPairs.find? (fun q => decide (q.1 = c)) with
    | none =>
      unfold lowerAscii at h
      rw [hfind] at h
      exact h
    | some q =>
      have hsnd : ∀ q ∈ lowerPairs, q.2 ≠ '-' := by decide
      have hmem := List.mem_of_find?_eq_some hfind
      unfold lowerAscii at h
      rw [hfind] at h
      exact absurd h (hsnd q hmem)
  · intro h
    subst h
    decide

/-- On the characters reaching the lowercasing step (`[A-Za-z0-9-]`),
`lowerAscii` lands in `[a-z0-9-]`. -/
theorem lowerAscii_mem_of (c : Char)
    (h : isAsciiAlnumChar c = true ∨ c = '-') :
    lowerAscii c ∈ lowerChars ∨ lowerAscii c ∈ digitChars ∨ lowerAscii c = '-' := by
  have hu : ∀ x ∈ upperChars, lowerAscii x ∈ lowerChars := by decide
  have hlu : ∀ x ∈ lowerChars, x ∉ upperChars := by decide
  have hdu : ∀ x ∈ digitChars, x ∉ upperChars := by decide
  rcases h with h | h
  · unfold isAsciiAlnumChar at h
    rcases of_decide_eq_true h with h1 | h1 | h1
    · exact Or.inl (hu c h1)
    · rw [lowerAscii_of_not_upper c (hlu c h1)]
      exact Or.inl h1
    · rw [lowerAscii_of_not_upper c (hdu c h1)]
      exact Or.inr (Or.inl h1)
  · subst h
    exact Or.inr (Or.inr (by decide))

/-- Characters of the sub/collapse/strip result lie in `[A-Za-z0-9-]`. -/
theorem sanitizeCore_chars (l : List Char) (c : Char) (h : c ∈ sanitizeCore l) :
    isAsciiAlnumChar c = true ∨ c = '-' := by
  have h1 : c ∈ collapseAux false (subDashes l) := mem_stripDashes _ _ h
  have h2 : c ∈ subDashes l := mem_collapseAux c _ false h1
  rcases List.mem_map.mp h2 with ⟨x, _, hx⟩
  by_cases ha : isAsciiAlnumChar x = true
  · rw [if_pos ha] at hx
    subst hx
    exact Or.inl ha
  · rw [if_neg ha] at hx
    exact Or.inr hx.symm

/-- Truncation to a positive length keeps the head. -/
theorem head_take_pos {α : Type} (l : List α) (n : Nat) (hn : 0 < n) :
    (l.take n).head? = l.head? := by
  cases l with
  | nil => simp
  | cons a t =>
    cases n with
    | zero => exact absurd hn (Nat.lt_irrefl 0)
    | succ m => simp [List.take]

/-- C7 (amended): for every branch name, the sanitized slug has length at
most 30, uses only `[a-z0-9-]`, has no two consecutive dashes and no leading
dash; it is nonempty exactly when the input contains an ASCII alphanumeric;
it has no trailing dash whenever the collapsed and trimmed form fits within
the 30-character truncation (a trailing dash can appear only when truncation
cuts at a separator); and `"feature/My Fix!!"` yields `"feature-my-fix"`,
which matches `^[a-z0-9-]{1,30}$` with no double or edge dashes. -/
theorem C7_sanitize_slug_properties (s : String) :
    (sanitize_branch_name s).data.length ≤ 30 ∧
    (∀ c ∈ (sanitize_branch_name s).data,
      c ∈ lowerChars ∨ c ∈ digitChars ∨ c = '-') ∧
    List.Chain' noDoubleDash (sanitize_branch_name s).data ∧
    (∀ c, (sanitize_branch_name s).data.head? = some c → c ≠ '-') ∧
    ((∃ c ∈ s.data, isAsciiAlnumChar c = true) ↔
      (sanitize_branch_name s).data ≠ []) ∧
    ((sanitizeCore s.data).length ≤ 30 →
      ∀ c, (sanitize_branch_name s).data.getLast? = some c → c ≠ '-') ∧
    sanitize_branch_name "feature/My Fix!!" = "feature-my-fix" := by
  have hdata : (sanitize_branch_name s).data
      = ((sanitizeCore s.data).take 30).map lowerAscii := rfl
  have hchain : List.Chain' noDoubleDash (sanitizeCore s.data) :=
    stripDashes_chain _ (collapseAux_chain _ false)
  refine ⟨?_, ?_, ?_, ?_, ⟨?_, ?_⟩, ?_, by decide⟩
  · rw [hdata, List.length_map]
    exact List.length_take_le 30 _
  · intro c hc
    rw [hdata] at hc
    rcases List.mem_map.mp hc with ⟨x, hx, rfl⟩
    exact lowerAscii_mem_of x (sanitizeCore_chars _ x (List.take_subset 30 _ hx))
  · rw [hdata]
    have hchainTake := List.Chain'.prefix hchain (List.take_prefix 30 _)
    refine List.chain'_map_of_chain' lowerAscii ?_ hchainTake
    intro a b hab hand
    exact hab ⟨(lowerAscii_eq_dash_iff a).mp hand.1,
               (lowerAscii_eq_dash_iff b).mp hand.2⟩
  · intro c hc
    rw [hdata, List.head?_map, head_take_pos _ 30 (by omega)] at hc
    cases h0 : (sanitizeCore s.data).head? with
    | none => rw [h0] at hc; cases hc
    | some x =>
      rw [h0] at hc
      have hxc : lowerAscii x = c := by simpa using hc
      intro hcd
      exact stripDashes_head _ x h0
        ((lowerAscii_eq_dash_iff x).mp (hxc.trans hcd))
  · rintro ⟨c, hc, hal⟩
    have hcd : c ≠ '-' := by
      intro hh
      subst hh
      exact absurd hal (by decide)
    have h1 : c ∈ subDashes s.data :=
      List.mem_map.mpr ⟨c, hc, by rw [if_pos hal]⟩
    have h3 : c ∈ sanitizeCore s.data :=
      mem_stripDashes_of _ c (mem_collapseAux_of c hcd _ false h1) hcd
    rw [hdata]
    intro hnil
    rcases List.map_eq_nil_iff.mp hnil with htake
    rcases (List.take_eq_nil_iff.mp htake) with h30 | hcore
    · cases h30
    · exact List.ne_nil_of_mem h3 hcore
  · intro hne
    by_contra hnal
    push_neg at hnal
    have hall : ∀ c ∈ subDashes s.data, c = '-' := by
      intro c hc
      rcases List.mem_map.mp hc with ⟨x, hx, hfx⟩
      rw [if_neg (by simpa using hnal x hx)] at hfx
      exact hfx.symm
    have hall2 : ∀ c ∈ collapseAux false (subDashes s.data), c = '-' :=
      fun c hc => hall c (mem_collapseAux c _ false hc)
    have hcore : sanitizeCore s.data = [] := stripDashes_nil_of_all_dash _ hall2
    rw [hdata, hcore] at hne
    simp at hne
  · intro hlen c hc
    rw [hdata, List.take_of_length_le hlen, List.getLast?_map] at hc
    cases h0 : (sanitizeCore s.data).getLast? with
    | none => rw [h0] at hc; cases hc
    | some x =>
      rw [h0] at hc
      have hxc : lowerAscii x = c := by simpa using hc
      intro hcd
      exact stripDashes_getLast _ x h0
        ((lowerAscii_eq_dash_iff x).mp (hxc.trans hcd))

/-- Counterexample to C7 as stated: sanitization of `"!!!"` yields the empty
string, which fails `^[a-z0-9-]{1,30}$`; and on a 31-character branch name
the 30-character truncation cuts at a separator, leaving a trailing dash. -/
theorem C7_counterexample :
    sanitize_branch_name "!!!" = "" ∧
    sanitize_branch_name "a-b-c-d-e-f-g-h-i-j-k-l-m-n-o-p"
      = "a-b-c-d-e-f-g-h-i-j-k-l-m-n-o-" ∧
    (sanitize_branch_name "a-b-c-d-e-f-g-h-i-j-k-l-m-n-o-p").data.getLast?
      = some '-' := by
  refine ⟨by decide, by decide, by decide⟩

/-- Witness for C7: the amended properties instantiated on
`"feature/My Fix!!"`, with the bounded and conditional parts discharged at
the concrete characters `'f'` (head) and `'x'` (last). -/
theorem C7_witness :
    (sanitize_branch_name "feature/My Fix!!").data.length ≤ 30 ∧
    ('f' ∈ lowerChars ∨ 'f' ∈ digitChars ∨ 'f' = '-') ∧
    List.Chain' noDoubleDash (sanitize_branch_name "feature/My Fix!!").data ∧
    'f' ≠ '-' ∧
    ((∃ c ∈ "feature/My Fix!!".data, isAsciiAlnumChar c = true) ↔
      (sanitize_branch_name "feature/My Fix!!").data ≠ []) ∧
    'x' ≠ '-' ∧
    sanitize_branch_name "feature/My Fix!!" = "feature-my-fix" := by
  have h := C7_sanitize_slug_properties "feature/My Fix!!"
  exact ⟨h.1, h.2.1 'f' (by decide), h.2.2.1,
         h.2.2.2.1 'f' (by decide), h.2.2.2.2.1,
         h.2.2.2.2.2.1 (by decide) 'x' (by decide), h.2.2.2.2.2.2⟩

/-! ## In-place container reconciliation
(`Container.update_from_docker`, `Worktree.update_from_poll` in
`flotte/flotte/models/`) -/

/-- `ContainerState.from_string`: parse a docker state string (lowercased;
docker state strings are ASCII) to the enum, defaulting to `UNKNOWN`. -/
def containerStateFromString (s : String) : ContainerState :=
  let v := String.mk (s.data.map lowerAscii)
  if v = "running" then ContainerState.RUNNING
  else if v = "exited" then ContainerState.EXITED
  else if v = "paused" then ContainerState.PAUSED
  else if v = "restarting" then ContainerState.RESTARTING
  else if v = "dead" then ContainerState.DEAD
  else if v = "created" then ContainerState.CREATED
  else ContainerState.UNKNOWN

/-- One record of `docker compose ps --format json`, reduced to the fields
the model layer reads; each field holds the result of the corresponding
`data.get(...)` with its default already applied. -/
structure DockerEntry where
  Service : String
  ID : String
  Name : String
  Image : String
  State : String
  Status : String
  Ports : String
  deriving DecidableEq, Repr

/-- A `Container` object (`flotte/flotte/models/container.py`).  `objId` is
the Python object identity: allocated once at construction, never copied by
field updates — it is how the embedding expresses "mutated in place, not
replaced". -/
structure Container where
  objId : Nat
  service : String
  id : String
  name : String
  image : String
  state : ContainerState
  status : String
  ports : List String
  deriving DecidableEq, Repr

/-- `Container.__init__(service)`: fresh object with the given identity. -/
def Container.new (objId : Nat) (service : String) : Container :=
  { objId := objId, service := service, id := "", name := "", image := "",
    state := ContainerState.UNKNOWN, status := "", ports := [] }

/-- `Container.update_from_docker(data)`: overwrite every data field in
place; the object identity (and service) is untouched. -/
def Container.update_from_docker (c : Container) (d : DockerEntry) : Container :=
  { c with
    id := if d.ID = "" then "" else String.mk (d.ID.data.take 12),
    name := d.Name,
    image := d.Image,
    state := containerStateFromString d.State,
    status := d.Status,
    ports := parse_ports d.Ports }

/-- `worktree.containers`: a dict keyed by service name, as an
insertion-ordered association list. -/
abbrev ContainerMap := List (String × Container)

/-- Dict lookup in the container map. -/
def lookupC (m : ContainerMap) (s : String) : Option Container :=
  match m with
  | [] => none
  | (k, v) :: t => if k = s then some v else lookupC t s

/-- Dict store of an updated container under its (existing) key. -/
def setC (m : ContainerMap) (s : String) (c : Container) : ContainerMap :=
  m.map (fun kv => (kv.1, if kv.1 = s then c else kv.2))

/-- `Worktree.get_or_create_container(service)`: return the existing object,
or insert a fresh one (Python dicts append new keys at the end); `nextId`
is the object-identity allocator. -/
def get_or_create_container (m : ContainerMap) (nextId : Nat) (service : String) :
    Container × ContainerMap × Nat :=
  match lookupC m service with
  | some c => (c, m, nextId)
  | none => (Container.new nextId service,
             m ++ [(service, Container.new nextId service)], nextId + 1)

/-- One iteration of the update loop in `Worktree.update_from_poll`: skip
entries with an empty `Service`, otherwise get-or-create the container and
update it in place. -/
def pollStep (m : ContainerMap) (nextId : Nat) (d : DockerEntry) :
    ContainerMap × Nat :=
  if d.Service = "" then (m, nextId)
  else
    match get_or_create_container m nextId d.Service with
    | (c, m1, n1) => (setC m1 d.Service (c.update_from_docker d), n1)

/-- The `seen_services` set: services named by the poll data (dict order). -/
def seenServices (ds : List DockerEntry) : List String :=
  ds.filterMap (fun d => if d.Service = "" then none else some d.Service)

/-- `Worktree.update_from_poll(docker_data)` (container-map portion): update
or create containers for every record, then delete the entries whose service
was not seen.  (The method's final `check_and_clear` call touches only the
transient-state store, which is modelled separately by `pollSingle`.) -/
def update_from_poll (m : ContainerMap) (nextId : Nat) (ds : List DockerEntry) :
    ContainerMap × Nat :=
  match ds.foldl (fun acc d => pollStep acc.1 acc.2 d) (m, nextId) with
  | (m1, n1) => (m1.filter (fun kv => decide (kv.1 ∈ seenServices ds)), n1)

/-- Looking up a key after storing under a different key is unchanged. -/
theorem lookupC_setC_ne (m : ContainerMap) (k s : String) (c : Container)
    (h : k ≠ s) : lookupC (setC m k c) s = lookupC m s := by
  induction m with
  | nil => rfl
  | cons kv t ih =>
    obtain ⟨k', v⟩ := kv
    simp only [setC, List.map_cons, lookupC]
    by_cases hk : k' = s
    · rw [if_pos hk, if_pos hk, if_neg (fun hh => h (by rw [← hh]; exact hk))]
    · rw [if_neg hk, if_neg hk]
      exact ih

/-- Looking up the stored key returns the stored container, provided the
key was present. -/
theorem lookupC_setC_self (m : ContainerMap) (s : String) (c c0 : Container)
    (h : lookupC m s = some c0) : lookupC (setC m s c) s = some c := by
  induction m with
  | nil => simp [lookupC] at h
  | cons kv t ih =>
    obtain ⟨k, v⟩ := kv
    by_cases hk : k = s
    · subst hk
      simp [setC, lookupC]
    · simp only [lookupC, if_neg hk] at h
      simp only [setC, List.map_cons, lookupC, if_neg hk]
      exact ih h

/-- A present key still resolves (to the same container) after appending. -/
theorem lookupC_append_left (m l : ContainerMap) (s : String) (c : Container)
    (h : lookupC m s = some c) : lookupC (m ++ l) s = some c := by
  induction m with
  | nil => simp [lookupC] at h
  | cons kv t ih =>
    obtain ⟨k, v⟩ := kv
    by_cases hk : k = s
    · subst hk
      simp only [lookupC, if_pos rfl] at h ⊢
      exact h
    · simp only [lookupC, if_neg hk] at h ⊢
      exact ih h

/-- An absent key is exactly a failed lookup. -/
theorem lookupC_eq_none_iff (m : ContainerMap) (s : String) :
    lookupC m s = none ↔ s ∉ m.map Prod.fst := by
  induction m with
  | nil => simp [lookupC]
  | cons kv t ih =>
    obtain ⟨k, v⟩ := kv
    by_cases hk : k = s
    · subst hk
      simp [lookupC]
    · simp only [lookupC, if_neg hk, List.map_cons, List.mem_cons, ih]
      constructor
      · rintro h (h' | h')
        · exact hk h'.symm
        · exact h h'
      · intro h
        exact fun h' => h (Or.inr h')

/-- Storing under a key does not change the key sequence. -/
theorem keys_setC (m : ContainerMap) (s : String) (c : Container) :
    (setC m s c).map Prod.fst = m.map Prod.fst := by
  induction m with
  | nil => rfl
  | cons kv t ih =>
    simp only [setC, List.map_cons] at ih ⊢
    rw [ih]

/-- One poll step never loses a container, and keeps its object identity. -/
theorem pollStep_lookup (m : ContainerMap) (nextId : Nat) (d : DockerEntry)
    (s : String) (c : Container) (h : lookupC m s = some c) :
    ∃ c', lookupC (pollStep m nextId d).1 s = some c' ∧ c'.objId = c.objId := by
  unfold pollStep
  by_cases hd : d.Service = ""
  · exact ⟨c, by simp [hd, h], rfl⟩
  · rw [if_neg hd]
    unfold get_or_create_container
    cases hl : lookupC m d.Service with
    | some c0 =>
      by_cases hs : d.Service = s
      · subst hs
        have hc0 : c0 = c := by rw [hl] at h; injection h
        subst hc0
        exact ⟨c0.update_from_docker d,
          lookupC_setC_self m d.Service _ c0 hl, rfl⟩
      · exact ⟨c, by rw [lookupC_setC_ne m d.Service s _ hs]; exact h, rfl⟩
    | none =>
      have hs : d.Service ≠ s := by
        intro hh
        rw [hh, h] at hl
        cases hl
      refine ⟨c, ?_, rfl⟩
      rw [lookupC_setC_ne _ d.Service s _ hs]
      exact lookupC_append_left m _ s c h

/-- One poll step keeps the key sequence duplicate-free. -/
theorem pollStep_nodup (m : ContainerMap) (nextId : Nat) (d : DockerEntry)
    (h : (m.map Prod.fst).Nodup) :
    (((pollStep m nextId d).1.map Prod.fst)).Nodup := by
  unfold pollStep
  by_cases hd : d.Service = ""
  · simpa [hd] using h
  · rw [if_neg hd]
    unfold get_or_create_container
    cases hl : lookupC m d.Service with
    | some c0 =>
      simpa [keys_setC] using h
    | none =>
      have hnm : d.Service ∉ m.map Prod.fst := (lookupC_eq_none_iff m _).mp hl
      simp only [keys_setC, List.map_append]
      refine List.nodup_append.mpr ⟨h, List.nodup_singleton _, ?_⟩
      intro x hx hxs
      have hxd : x = d.Service := by simpa using hxs
      subst hxd
      exact hnm hx

/-- The whole update loop never loses a container that was already present,
and keeps its object identity. -/
theorem foldPolls_lookup (ds : List DockerEntry) :
    ∀ (m : ContainerMap) (nextId : Nat) (s : String) (c : Container),
      lookupC m s = some c →
      ∃ c', lookupC (ds.foldl (fun acc d => pollStep acc.1 acc.2 d)
          (m, nextId)).1 s = some c' ∧ c'.objId = c.objId := by
  induction ds with
  | nil => intro m n s c h; exact ⟨c, h, rfl⟩
  | cons d rest ih =>
    intro m n s c h
    rcases pollStep_lookup m n d s c h with ⟨c1, h1, hid⟩
    rcases ih (pollStep m n d).1 (pollStep m n d).2 s c1 h1 with ⟨c2, h2, hid2⟩
    rw [List.foldl_cons]
    exact ⟨c2, h2, hid2.trans hid⟩

/-- The whole update loop keeps the key sequence duplicate-free. -/
theorem foldPolls_nodup (ds : List DockerEntry) :
    ∀ (m : ContainerMap) (nextId : Nat), (m.map Prod.fst).Nodup →
      (((ds.foldl (fun acc d => pollStep acc.1 acc.2 d)
          (m, nextId)).1.map Prod.fst)).Nodup := by
  induction ds with
  | nil => intro m n h; exact h
  | cons d rest ih =>
    intro m n h
    rw [List.foldl_cons]
    exact ih (pollStep m n d).1 (pollStep m n d).2 (pollStep_nodup m n d h)

/-- Looking a key up in a key-filtered map gates the plain lookup on the
key's predicate. -/
theorem lookupC_filter_key (p : String → Bool) (m : ContainerMap) (s : String) :
    lookupC (m.filter (fun kv => p kv.1)) s
      = if p s then lookupC m s else none := by
  induction m with
  | nil => simp [lookupC]
  | cons kv t ih =>
    obtain ⟨k, v⟩ := kv
    simp only [List.filter_cons]
    by_cases hp : p k = true
    · rw [if_pos hp]
      by_cases hk : k = s
      · subst hk
        simp [lookupC, hp]
      · simp only [lookupC, if_neg hk]
        exact ih
    · rw [if_neg hp]
      by_cases hk : k = s
      · subst hk
        rw [ih, if_neg (by simpa using hp), if_neg (by simpa using hp)]
      · simp only [lookupC, if_neg hk]
        exact ih

/-- The model layer's in-place reconciliation mechanism: across a call to
`Worktree.update_from_poll`, every container whose service appears in the
poll data keeps its object identity — the stored `Container` is mutated in
place, never replaced — and the container map stays duplicate-free with
every surviving key among the polled services.  Nothing in the repository
invokes this method; the live poll path is modelled by `pollSingleCaught`
below. -/
theorem update_from_poll_in_place (m : ContainerMap) (nextId : Nat)
    (ds : List DockerEntry) (s : String) (c : Container)
    (hc : lookupC m s = some c)
    (hseen : s ∈ seenServices ds)
    (hnd : (m.map Prod.fst).Nodup) :
    (∃ c', lookupC (update_from_poll m nextId ds).1 s = some c' ∧
      c'.objId = c.objId) ∧
    ((update_from_poll m nextId ds).1.map Prod.fst).Nodup ∧
    (∀ k, k ∈ (update_from_poll m nextId ds).1.map Prod.fst →
      k ∈ seenServices ds) := by
  rcases foldPolls_lookup ds m nextId s c hc with ⟨c', h1, hid⟩
  have hnd1 := foldPolls_nodup ds m nextId hnd
  refine ⟨⟨c', ?_, hid⟩, ?_, ?_⟩
  · unfold update_from_poll
    rw [lookupC_filter_key (fun k => decide (k ∈ seenServices ds)) _ s,
      if_pos (by simpa using hseen)]
    exact h1
  · unfold update_from_poll
    exact hnd1.sublist ((List.filter_sublist _).map Prod.fst)
  · intro k hk
    unfold update_from_poll at hk
    rcases List.mem_map.mp hk with ⟨kv, hkv, rfl⟩
    have := List.of_mem_filter hkv
    simpa using this

/-- `update_from_poll_in_place` evaluated on a two-service map (object
identities 5 and 7) polled with fresh data for both services: both
identities survive, keys stay duplicate-free, only polled services remain. -/
theorem update_from_poll_in_place_check :
    (∃ c', lookupC (update_from_poll
        [("web", Container.new 5 "web"), ("db", Container.new 7 "db")] 8
        [{ Service := "web", ID := "0123456789abcdef", Name := "p-web-1",
           Image := "nginx", State := "running", Status := "Up", Ports := "" },
         { Service := "db", ID := "fedcba9876543210", Name := "p-db-1",
           Image := "mysql", State := "exited", Status := "Exited (0)",
           Ports := "" }]).1 "db" = some c' ∧
      c'.objId = (Container.new 7 "db").objId) ∧
    ((update_from_poll
        [("web", Container.new 5 "web"), ("db", Container.new 7 "db")] 8
        [{ Service := "web", ID := "0123456789abcdef", Name := "p-web-1",
           Image := "nginx", State := "running", Status := "Up", Ports := "" },
         { Service := "db", ID := "fedcba9876543210", Name := "p-db-1",
           Image := "mysql", State := "exited", Status := "Exited (0)",
           Ports := "" }]).1.map Prod.fst).Nodup ∧
    (∀ k, k ∈ (update_from_poll
        [("web", Container.new 5 "web"), ("db", Container.new 7 "db")] 8
        [{ Service := "web", ID := "0123456789abcdef", Name := "p-web-1",
           Image := "nginx", State := "running", Status := "Up", Ports := "" },
         { Service := "db", ID := "fedcba9876543210", Name := "p-db-1",
           Image := "mysql", State := "exited", Status := "Exited (0)",
           Ports := "" }]).1.map Prod.fst →
      k ∈ seenServices
        [{ Service := "web", ID := "0123456789abcdef", Name := "p-web-1",
           Image := "nginx", State := "running", Status := "Up", Ports := "" },
         { Service := "db", ID := "fedcba9876543210", Name := "p-db-1",
           Image := "mysql", State := "exited", Status := "Exited (0)",
           Ports := "" }]) :=
  update_from_poll_in_place
    [("web", Container.new 5 "web"), ("db", Container.new 7 "db")] 8
    [{ Service := "web", ID := "0123456789abcdef", Name := "p-web-1",
       Image := "nginx", State := "running", Status := "Up", Ports := "" },
     { Service := "db", ID := "fedcba9876543210", Name := "p-db-1",
       Image := "mysql", State := "exited", Status := "Exited (0)",
       Ports := "" }] "db" (Container.new 7 "db") (by decide) (by decide)
    (by decide)

/-! ## NDJSON tolerance (`DockerManager.get_containers`,
`flotte/flotte/services/docker_manager.py`) -/

/-- JSON values as they occur in one line of
`docker compose ps -a --format json` output: the fields read by the poller
are strings; numbers, booleans and null round out the flat-object subset of
`json.loads` modelled here. -/
inductive JsonVal where
  | str : String → JsonVal
  | num : Int → JsonVal
  | bool : Bool → JsonVal
  | null : JsonVal
  deriving DecidableEq, Repr

/-- Skip JSON whitespace. -/
def skipWs (l : List Char) : List Char :=
  l.dropWhile Char.isWhitespace

/-- Body of a JSON string literal (after the opening quote): consume until
the closing quote, handling the common escapes; anything else is a decode
error. -/
def jstrAux : List Char → List Char → Option (String × List Char)
  | [], _ => none
  | '\\' :: c :: rest, acc =>
    if c = '"' then jstrAux rest ('"' :: acc)
    else if c = '\\' then jstrAux rest ('\\' :: acc)
    else if c = '/' then jstrAux rest ('/' :: acc)
    else if c = 'n' then jstrAux rest ('\n' :: acc)
    else if c = 't' then jstrAux rest ('\t' :: acc)
    else none
  | '"' :: rest, acc => some (String.mk acc.reverse, rest)
  | c :: rest, acc => jstrAux rest (c :: acc)

/-- A JSON number (integer subset). -/
def parseJNum (l : List Char) : Option (Int × List Char) :=
  match l with
  | '-' :: rest =>
    let ds := rest.takeWhile Char.isDigit
    if ds = [] then none
    else some (-(digitsToNat ds : Int), rest.drop ds.length)
  | _ =>
    let ds := l.takeWhile Char.isDigit
    if ds = [] then none
    else some ((digitsToNat ds : Int), l.drop ds.length)

/-- A JSON scalar value. -/
def parseJVal (l : List Char) : Option (JsonVal × List Char) :=
  match skipWs l with
  | '"' :: rest => (jstrAux rest []).map (fun sr => (JsonVal.str sr.1, sr.2))
  | 't' :: 'r' :: 'u' :: 'e' :: rest => some (JsonVal.bool true, rest)
  | 'f' :: 'a' :: 'l' :: 's' :: 'e' :: rest => some (JsonVal.bool false, rest)
  | 'n' :: 'u' :: 'l' :: 'l' :: rest => some (JsonVal.null, rest)
  | l1 => (parseJNum l1).map (fun nr => (JsonVal.num nr.1, nr.2))

/-- The members of a JSON object after its opening brace: `"key": value`
pairs separated by commas, closed by a brace.  The fuel argument bounds the
recursion by the line length. -/
def parseJMembers : Nat → List Char → List (String × JsonVal) →
    Option (List (String × JsonVal) × List Char)
  | 0, _, _ => none
  | fuel + 1, l, acc =>
    match skipWs l with
    | '"' :: rest =>
      match jstrAux rest [] with
      | none => none
      | some (k, r1) =>
        match skipWs r1 with
        | ':' :: r2 =>
          match parseJVal r2 with
          | none => none
          | some (v, r3) =>
            match skipWs r3 with
            | ',' :: r4 => parseJMembers fuel r4 (acc ++ [(k, v)])
            | '}' :: r5 => some (acc ++ [(k, v)], r5)
            | _ => none
        | _ => none
    | _ => none

/-- `json.loads(line)` on the flat-object subset emitted by
`docker compose ps --format json`: a single `\x7b ... \x7d` object with
string keys and scalar values, whole-line; anything else raises
`JSONDecodeError`, modelled as `none`. -/
def jsonLoadsObj (s : String) : Option (List (String × JsonVal)) :=
  match skipWs s.data with
  | '{' :: rest =>
    match skipWs rest with
    | '}' :: r2 => if skipWs r2 = [] then some [] else none
    | _ =>
      match parseJMembers (s.data.length + 1) rest [] with
      | some (ms, r) => if skipWs r = [] then some ms else none
      | none => none
  | _ => none

/-- First binding of a key in a decoded object. -/
def jLookup (d : List (String × JsonVal)) (k : String) : Option JsonVal :=
  match d with
  | [] => none
  | (k1, v) :: t => if k1 = k then some v else jLookup t k

/-- `data.get(key, "")` for the string fields the poller reads. -/
def jGetStr (d : List (String × JsonVal)) (k : String) : String :=
  match jLookup d k with
  | some (JsonVal.str s) => s
  | _ => ""

/-- A container row with the fields named by the keyword `Container(...)`
constructions in `flotte/flotte/services/docker_manager.py`.  In the src
snapshot those constructions raise TypeError — the imported
`Container.__init__` takes only `service` — so the program never actually
builds such a row (`getContainersSrc` below models that); this record stands
for the row the keyword call is written to produce. -/
structure DMContainer where
  id : String
  name : String
  service : String
  image : String
  state : ContainerState
  status : String
  ports : List String
  deriving DecidableEq, Repr

/-- One decoded `ps` record turned into a container row — the intent of the
keyword `Container(...)` call at docker_manager.py:83, which in the src
snapshot raises TypeError instead of producing the row. -/
def mkDMContainer (data : List (String × JsonVal)) : DMContainer :=
  { id := String.mk ((jGetStr data "ID").data.take 12),
    name := jGetStr data "Name",
    service := jGetStr data "Service",
    image := jGetStr data "Image",
    state := containerStateFromString (jGetStr data "State"),
    status := jGetStr data "Status",
    ports := parse_ports (jGetStr data "Ports") }

/-- The placeholder row synthesized for a defined service with no container
— the intent of the keyword `Container(...)` call at docker_manager.py:106,
which in the src snapshot raises TypeError instead of producing the row. -/
def placeholderDM (service : String) : DMContainer :=
  { id := "", name := "-", service := service, image := "",
    state := ContainerState.EXITED, status := "-", ports := [] }

/-- Phase 1 of `get_containers`: walk the NDJSON lines of
`docker compose ps -a --format json`, skipping blank lines and lines that
fail to decode, accumulating the container rows and the set of service
names seen. -/
def psPhase (lines : List String) : List DMContainer × List String :=
  lines.foldl
    (fun acc line =>
      if String.mk (stripWs line.data) = "" then acc
      else
        match jsonLoadsObj line with
        | none => acc
        | some data =>
          (acc.1 ++ [mkDMContainer data], acc.2 ++ [jGetStr data "Service"]))
    ([], [])

/-- Lexicographic code-point comparison of character lists: Python string
`<=`, which `sorted(key=lambda c: c.service)` uses. -/
def charListLe : List Char → List Char → Bool
  | [], _ => true
  | _ :: _, [] => false
  | a :: as, b :: bs =>
    if a.toNat < b.toNat then true
    else if b.toNat < a.toNat then false
    else charListLe as bs

/-- `DockerManager.get_containers()` as documented: decode the `ps` lines,
then append a placeholder for every service from
`docker compose config --services` without a container, and sort rows by
service name.  This is the function's intent; `getContainersSrc` below
models the src snapshot, where every row construction raises TypeError. -/
def get_containers (psLines serviceLines : List String) : List DMContainer :=
  let ph := psPhase psLines
  (serviceLines.foldl
      (fun cs raw =>
        let name := String.mk (stripWs raw.data)
        if name ≠ "" ∧ name ∉ ph.2 then cs ++ [placeholderDM name] else cs)
      ph.1).insertionSort (fun a b => charListLe a.service.data b.service.data = true)

/-- A valid `ps` line naming the `web` service. -/
def psLineWeb : String :=
  "\x7b\"Service\":\"web\",\"ID\":\"0123456789abcdef\",\"Name\":\"p-web-1\",\"Image\":\"nginx\",\"State\":\"running\",\"Status\":\"Up 2 hours\",\"Ports\":\"0.0.0.0:8080->80/tcp\"\x7d"

/-- A malformed `ps` line (truncated mid-object). -/
def psLineBad : String := "\x7b\"Service\":\"cache\",\"State\":"

/-- A valid `ps` line naming the `db` service. -/
def psLineDb : String :=
  "\x7b\"Service\":\"db\",\"ID\":\"fedcba9876543210\",\"Name\":\"p-db-1\",\"Image\":\"mysql\",\"State\":\"exited\",\"Status\":\"Exited (0)\",\"Ports\":\"\"\x7d"

/-- A line that fails to decode contributes nothing to phase 1. -/
theorem psPhase_step_bad (acc : List DMContainer × List String) (bad : String)
    (hbad : jsonLoadsObj bad = none) :
    (if String.mk (stripWs bad.data) = "" then acc
     else
       match jsonLoadsObj bad with
       | none => acc
       | some data =>
         (acc.1 ++ [mkDMContainer data], acc.2 ++ [jGetStr data "Service"]))
      = acc := by
  by_cases hb : String.mk (stripWs bad.data) = ""
  · rw [if_pos hb]
  · rw [if_neg hb, hbad]

/-- The documented reconciliation of `get_containers`: a malformed NDJSON
line is skipped and every other line still parsed — inserting a line on
which `json.loads` fails anywhere in the `ps` output leaves the result
unchanged; on the three documented lines (the second malformed) the
collection is exactly the rows of the two valid lines plus the placeholder
for the remaining defined service.  `C9_src_get_containers_aborts` below
shows the src snapshot instead aborts at the first constructed row. -/
theorem get_containers_skips_malformed (pre post serviceLines : List String)
    (bad : String) (hbad : jsonLoadsObj bad = none) :
    get_containers (pre ++ bad :: post) serviceLines
      = get_containers (pre ++ post) serviceLines ∧
    get_containers [psLineWeb, psLineBad, psLineDb] ["web", "db", "assets"]
      = [placeholderDM "assets",
         { id := "fedcba987654", name := "p-db-1", service := "db",
           image := "mysql", state := ContainerState.EXITED,
           status := "Exited (0)", ports := [] },
         { id := "0123456789ab", name := "p-web-1", service := "web",
           image := "nginx", state := ContainerState.RUNNING,
           status := "Up 2 hours", ports := ["8080"] }] := by
  constructor
  · have hph : psPhase (pre ++ bad :: post) = psPhase (pre ++ post) := by
      unfold psPhase
      rw [List.foldl_append, List.foldl_cons,
        psPhase_step_bad _ bad hbad, ← List.foldl_append]
    unfold get_containers
    rw [hph]
  · decide

/-- `get_containers_skips_malformed` applied with the documented three-line
output (`pre = [psLineWeb]`, `post = [psLineDb]`, `bad = psLineBad`), whose
malformedness is discharged by evaluation. -/
theorem get_containers_skips_malformed_check :
    (get_containers [psLineWeb, psLineBad, psLineDb] ["web", "db", "assets"]
      = get_containers [psLineWeb, psLineDb] ["web", "db", "assets"]) ∧
    get_containers [psLineWeb, psLineBad, psLineDb] ["web", "db", "assets"]
      = [placeholderDM "assets",
         { id := "fedcba987654", name := "p-db-1", service := "db",
           image := "mysql", state := ContainerState.EXITED,
           status := "Exited (0)", ports := [] },
         { id := "0123456789ab", name := "p-web-1", service := "web",
           image := "nginx", state := ContainerState.RUNNING,
           status := "Up 2 hours", ports := ["8080"] }] :=
  get_containers_skips_malformed [psLineWeb] [psLineDb] ["web", "db", "assets"]
    psLineBad (by decide)

/-! ## The src snapshot's error paths

The source tree is mid-refactor: `DockerManager.get_containers` constructs
`Container(id=..., name=..., service=..., ...)` with keyword arguments
against the single-argument `Container.__init__(service)` it imports
(TypeError), `FlotteApp.poll_container_status` runs
`worktree.status = worktree.calculate_status()` although `Worktree` has no
`calculate_status` method and `status` is a getter-only property
(AttributeError), and `get_worktree_status`'s priority-3 branch calls the
same missing method.  The following definitions embed those bodies as they
stand, with the raised exception as an `Except.error`. -/

/-- Phase 1 of `get_containers` as it stands in src: blank and undecodable
lines are skipped as before, but the first successfully decoded line reaches
the keyword `Container(...)` call and raises TypeError. -/
def psPhaseSrc : List String → List DMContainer × List String →
    Except String (List DMContainer × List String)
  | [], acc => Except.ok acc
  | line :: rest, acc =>
    if String.mk (stripWs line.data) = "" then psPhaseSrc rest acc
    else
      match jsonLoadsObj line with
      | none => psPhaseSrc rest acc
      | some _ => Except.error "TypeError"

/-- Phase 2 of `get_containers` as it stands in src: the first defined
service that needs a placeholder reaches the other keyword `Container(...)`
call and raises TypeError. -/
def placeholderPhaseSrc (seen : List String) :
    List String → List DMContainer → Except String (List DMContainer)
  | [], cs => Except.ok cs
  | raw :: rest, cs =>
    let name := String.mk (stripWs raw.data)
    if name ≠ "" ∧ name ∉ seen then Except.error "TypeError"
    else placeholderPhaseSrc seen rest cs

/-- `DockerManager.get_containers()` as it stands in src: the surrounding
`except` catches only `JSONDecodeError`, so the TypeError from either row
construction propagates and aborts the call; it can return normally only
when no row was ever constructed. -/
def getContainersSrc (psLines serviceLines : List String) :
    Except String (List DMContainer) :=
  match psPhaseSrc psLines ([], []) with
  | Except.error e => Except.error e
  | Except.ok (cs, seen) =>
    match placeholderPhaseSrc seen serviceLines cs with
    | Except.error e => Except.error e
    | Except.ok cs2 =>
      Except.ok (cs2.insertionSort
        (fun a b => charListLe a.service.data b.service.data = true))

/-- The body of `poll_single` as it stands in src: `get_containers` either
raises, or returns (necessarily empty) rows after which
`worktree.status = worktree.calculate_status()` raises AttributeError — in
every case the exception is thrown before the grace-clear block. -/
def pollSingleSrc (_s : AppState) (_name : String)
    (psLines serviceLines : List String) : Except String AppState :=
  match getContainersSrc psLines serviceLines with
  | Except.error e => Except.error e
  | Except.ok _ => Except.error "AttributeError"

/-- The observable effect of one `poll_single` call in src: the `except`
clause around it logs and swallows the exception.  When `get_containers`
raised, nothing was assigned; when it returned rows (only possible with
none constructed), `worktree.containers` was rebound just before the
AttributeError.  The grace fields are untouched in every case. -/
def pollSingleCaught (s : AppState) (name : String)
    (psLines serviceLines : List String) : AppState :=
  match getContainersSrc psLines serviceLines with
  | Except.error _ => s
  | Except.ok cs =>
    { s with worktrees := setWt s.worktrees name (cs.map (fun c => c.state)) }

/-- `FlotteApp.get_worktree_status` as it stands in src: priorities 1 and 2
are pure, but priority 3 calls the missing `wt.calculate_status()` and
raises AttributeError whenever the worktree is found. -/
def get_worktree_status_src (s : AppState) (now : Int) (name : String) :
    Except String WorktreeStatus :=
  let fromContainers :=
    match lookupWt s.worktrees name with
    | some _ => Except.error "AttributeError"
    | none => Except.ok UNKNOWN
  if s.op_in_progress ∧ s.op_target = some name then
    Except.ok (match s.op_type with
      | some op => opStatusMap op
      | none => UNKNOWN)
  else
    match s.grace_target, s.grace_expected, s.grace_time with
    | some t, some e, some tm =>
      if t = name ∧ now - tm < OPERATION_GRACE_PERIOD then Except.ok e
      else fromContainers
    | _, _, _ => fromContainers

/-- C3: in the src snapshot no poll ever clears a grace record, and after
the window elapses the status query raises instead of returning the stored
actual status.  Every `poll_single` body raises before the grace-clear block
(first conjunct), the caught call leaves all three grace fields exactly as
they were for every state and every poll input (second conjunct), and on
`idleGraceState` — grace record on `wt-a` installed at instant 0 — the query
at instant 5 (window elapsed) hits priority 3 and raises AttributeError at
the missing `calculate_status` (third conjunct). -/
theorem C3_src_poll_never_clears_grace :
    (∀ (s : AppState) (name : String) (psLines serviceLines : List String),
      ∃ e, pollSingleSrc s name psLines serviceLines = Except.error e) ∧
    (∀ (s : AppState) (name : String) (psLines serviceLines : List String),
      (pollSingleCaught s name psLines serviceLines).grace_target
          = s.grace_target ∧
      (pollSingleCaught s name psLines serviceLines).grace_expected
          = s.grace_expected ∧
      (pollSingleCaught s name psLines serviceLines).grace_time
          = s.grace_time) ∧
    get_worktree_status_src idleGraceState 5 "wt-a"
      = Except.error "AttributeError" := by
  refine ⟨?_, ?_, by rfl⟩
  · intro s name psLines serviceLines
    unfold pollSingleSrc
    cases h : getContainersSrc psLines serviceLines with
    | error e => exact ⟨e, rfl⟩
    | ok cs => exact ⟨"AttributeError", rfl⟩
  · intro s name psLines serviceLines
    unfold pollSingleCaught
    cases h : getContainersSrc psLines serviceLines with
    | error e => exact ⟨rfl, rfl, rfl⟩
    | ok cs => exact ⟨rfl, rfl, rfl⟩

/-- C5: the live poll path never mutates any container in place.  It does
not call `Worktree.update_from_poll` at all: with any valid `ps` line the
row construction inside `get_containers` raises TypeError before any map is
touched (first conjunct), so the caught poll leaves the state — container
map included — exactly as it was (second conjunct); and every poll body
raises regardless of input (third conjunct), so no reference ever observes
an in-place update across a poll tick. -/
theorem C5_src_live_poll_never_updates :
    (∀ (post serviceLines : List String),
      getContainersSrc (psLineWeb :: post) serviceLines
        = Except.error "TypeError") ∧
    (∀ (s : AppState) (name : String) (post serviceLines : List String),
      pollSingleCaught s name (psLineWeb :: post) serviceLines = s) ∧
    (∀ (s : AppState) (name : String) (psLines serviceLines : List String),
      ∃ e, pollSingleSrc s name psLines serviceLines = Except.error e) := by
  have hweb : ∀ (post serviceLines : List String),
      getContainersSrc (psLineWeb :: post) serviceLines
        = Except.error "TypeError" := by
    intro post serviceLines
    rfl
  refine ⟨hweb, ?_, ?_⟩
  · intro s name post serviceLines
    unfold pollSingleCaught
    rw [hweb post serviceLines]
  · intro s name psLines serviceLines
    unfold pollSingleSrc
    cases h : getContainersSrc psLines serviceLines with
    | error e => exact ⟨e, rfl⟩
    | ok cs => exact ⟨"AttributeError", rfl⟩

/-- C9: the reconciled collection the claim describes is unattainable in the
src snapshot.  On the documented three-line output `get_containers` aborts
with TypeError at the first valid line (first conjunct) — any output whose
first line is valid aborts the same way (second conjunct), and a needed
placeholder aborts too (third conjunct); only when no row is ever
constructed does the call return, with the empty collection (fourth
conjunct: the malformed line alone is still skipped without aborting). -/
theorem C9_src_get_containers_aborts :
    getContainersSrc [psLineWeb, psLineBad, psLineDb] ["web", "db", "assets"]
      = Except.error "TypeError" ∧
    (∀ (post serviceLines : List String),
      getContainersSrc (psLineDb :: post) serviceLines
        = Except.error "TypeError") ∧
    getContainersSrc [psLineBad] ["assets"] = Except.error "TypeError" ∧
    getContainersSrc [psLineBad] [] = Except.ok [] := by
  refine ⟨by rfl, ?_, by rfl, by rfl⟩
  intro post serviceLines
  rfl

end Flotte
